import Mathlib

/-!
Verification of the lane-isolation pipeline (`LaneDetector.py`, class
`LaneIsolator`) against its natural-language specification.

Images are embedded as lists of rows; a 3-channel pixel is a triple of
8-bit samples modelled as naturals.  The external OpenCV primitives
(histogram equalization, colour-space conversion, Sobel derivatives) are
not part of the repository, so they enter the embedding as function
parameters; the colour-space conversions are per-pixel maps, exactly as
`cv2.cvtColor` is.  Gradient magnitudes and directions are real-valued,
matching the `CV_64F` floating-point maps of the source.
-/

namespace LaneIsolator

/-- Matrix as a list of rows. -/
abbrev Mat (α : Type) : Type := List (List α)

/-- A 3-channel pixel (channel order fixed, BGR in the source). -/
abbrev Pixel : Type := Nat × Nat × Nat

/-- A 3-channel image. -/
abbrev Image : Type := Mat Pixel

/-- Apply a function to every element of a matrix. -/
def mapMat (f : α → β) (m : Mat α) : Mat β :=
  m.map (List.map f)

/-- Elementwise combination of two matrices (numpy broadcasting on
equal-shaped operands). -/
def zipWithMat (f : α → β → γ) (a : Mat α) (b : Mat β) : Mat γ :=
  List.zipWith (List.zipWith f) a b

/-- Three-way elementwise zip on lists. -/
def zipWith3 (f : α → β → γ → δ) : List α → List β → List γ → List δ
  | a :: as, b :: bs, c :: cs => f a b c :: zipWith3 f as bs cs
  | _, _, _ => []

/-- Three-way elementwise zip on matrices. -/
def zipWith3Mat (f : α → β → γ → δ) (a : Mat α) (b : Mat β) (c : Mat γ) : Mat δ :=
  zipWith3 (fun ra rb rc => zipWith3 f ra rb rc) a b c

/-- The sample of a matrix at row `i`, column `j`, if present. -/
def idx (m : Mat α) (i j : Nat) : Option α :=
  (m[i]?).bind (fun row => row[j]?)

/-- The list of row lengths; two matrices have the same spatial shape
iff their `shapeMat`s agree. -/
def shapeMat (m : Mat α) : List Nat :=
  m.map List.length

/-- Every sample of the matrix is `0` or `1`. -/
def binaryMat [Zero α] [One α] (m : Mat α) : Prop :=
  ∀ row ∈ m, ∀ v ∈ row, v = 0 ∨ v = 1

/-- Number of samples equal to `1` (the count of set pixels of a mask). -/
def countOnes [DecidableEq α] [One α] (m : Mat α) : Nat :=
  (m.map (fun row => row.countP (fun v => decide (v = 1)))).sum

/-- `LaneIsolator._within_threshold`: fill with ones the entries lying
within the inclusive threshold bounds, zeros elsewhere
(`thresholded[(array >= min_val) & (array <= max_val)] = 1` over
`np.zeros_like(array)`). -/
def _within_threshold [LinearOrder α] [Zero α] [One α]
    (array : Mat α) (threshold : α × α) : Mat α :=
  let min_val := threshold.1
  let max_val := threshold.2
  mapMat (fun v => if min_val ≤ v ∧ v ≤ max_val then 1 else 0) array

/-- `self.L_THRESHOLD`: lightness (L of LUV) threshold. -/
def L_THRESHOLD : Nat × Nat := (120, 255)

/-- `self.S_THRESHOLD`: saturation (S of HLS) threshold. -/
def S_THRESHOLD : Nat × Nat := (105, 255)

/-- `self.B_THRESHOLD`: chrominance (b of Lab) threshold. -/
def B_THRESHOLD : Nat × Nat := (180, 210)

/-- `self.MAG_THRESHOLD`: gradient-magnitude threshold. -/
def MAG_THRESHOLD : ℝ × ℝ := (30, 235)

/-- `self.DIR_THRESHOLD`: gradient-direction threshold `(0, np.pi / 2)`. -/
noncomputable def DIR_THRESHOLD : ℝ × ℝ := (0, Real.pi / 2)

/-- Real-valued model of `np.arctan2 y x` (signed zeros of the float
version collapse to the single real `0`; the pipeline only applies it to
absolute values, where the two agree). -/
noncomputable def arctan2 (y x : ℝ) : ℝ :=
  if 0 < x then Real.arctan (y / x)
  else if x < 0 then
    (if 0 ≤ y then Real.arctan (y / x) + Real.pi else Real.arctan (y / x) - Real.pi)
  else
    (if 0 < y then Real.pi / 2 else if y < 0 then -(Real.pi / 2) else 0)

/-- `LaneIsolator.eq_histogram`: equalize each of the three channels in
place and return the frame.  `eqHist` stands for the external
`cv2.equalizeHist`, a whole-plane transform; each channel is equalized
independently, so writing channel `k` back before reading channel `k+1`
leaves the later reads unaffected, and the resulting frame recombines
the three equalized planes of the original frame. -/
def eq_histogram (eqHist : Mat Nat → Mat Nat) (img : Image) : Image :=
  let c0 := eqHist (mapMat (fun p => p.1) img)
  let c1 := eqHist (mapMat (fun p => p.2.1) img)
  let c2 := eqHist (mapMat (fun p => p.2.2) img)
  zipWith3Mat (fun a b c => ((a, b, c) : Pixel)) c0 c1 c2

/-- `LaneIsolator.color_threshold`: extract the L (LUV), S (HLS) and b
(Lab) channels, threshold each, and combine as `(l & s) | b`.  The
per-pixel colour-space conversions `luv`, `hls`, `lab` stand for the
external `cv2.cvtColor` transforms, which act pixelwise. -/
def color_threshold (luv hls lab : Pixel → Pixel) (img : Image) : Mat Nat :=
  let l_chan := mapMat (fun p => (luv p).1) img
  let s_chan := mapMat (fun p => (hls p).2.2) img
  let b_chan := mapMat (fun p => (lab p).2.2) img
  let l_thresh := _within_threshold l_chan L_THRESHOLD
  let s_thresh := _within_threshold s_chan S_THRESHOLD
  let b_thresh := _within_threshold b_chan B_THRESHOLD
  zipWith3Mat (fun l s b => if l = 1 ∧ s = 1 ∨ b = 1 then (1 : Nat) else 0)
    l_thresh s_thresh b_thresh

/-- `LaneIsolator._gradients`: the Sobel x- and y-derivative maps of the
grayscale image.  `sx`, `sy` stand for the external `cv2.Sobel` calls
(`CV_64F`, hence real-valued output). -/
def _gradients (sx sy : Mat Nat → Mat ℝ) (gray : Mat Nat) : Mat ℝ × Mat ℝ :=
  (sx gray, sy gray)

/-- `LaneIsolator._gradient_mag`: `sqrt(grad_x**2 + grad_y**2)`
elementwise. -/
noncomputable def _gradient_mag (sx sy : Mat Nat → Mat ℝ) (gray : Mat Nat) : Mat ℝ :=
  let g := _gradients sx sy gray
  zipWithMat (fun a b => Real.sqrt (a ^ 2 + b ^ 2)) g.1 g.2

/-- `LaneIsolator._gradient_dir`: `np.arctan2(|grad_y|, |grad_x|)`
elementwise. -/
noncomputable def _gradient_dir (sx sy : Mat Nat → Mat ℝ) (gray : Mat Nat) : Mat ℝ :=
  let g := _gradients sx sy gray
  zipWithMat (fun a b => arctan2 |b| |a|) g.1 g.2

/-- `LaneIsolator.gradient_threshold`: grayscale the frame (`grayF`
stands for the pixelwise `cv2.cvtColor BGR2GRAY`), threshold the
gradient magnitude and direction maps, and combine with AND. -/
noncomputable def gradient_threshold (sx sy : Mat Nat → Mat ℝ)
    (grayF : Pixel → Nat) (img : Image) : Mat ℝ :=
  let gray := mapMat grayF img
  let magnitude := _gradient_mag sx sy gray
  let direction := _gradient_dir sx sy gray
  let mag_thresh := _within_threshold magnitude MAG_THRESHOLD
  let dir_thresh := _within_threshold direction DIR_THRESHOLD
  zipWithMat (fun m d => if m = 1 ∧ d = 1 then (1 : ℝ) else 0) mag_thresh dir_thresh

/-- `LaneIsolator.isolate_lines`: equalize, run both selectors on the
equalized frame, and set an output pixel where either selector set it
(`selection[(color_select == 1) | (grad_select == 1)] = 1` over
`np.zeros_like(color_select)`). -/
noncomputable def isolate_lines (eqHist : Mat Nat → Mat Nat)
    (luv hls lab : Pixel → Pixel) (sx sy : Mat Nat → Mat ℝ)
    (grayF : Pixel → Nat) (img : Image) : Mat Nat :=
  let equalized := eq_histogram eqHist img
  let color_select := color_threshold luv hls lab equalized
  let grad_select := gradient_threshold sx sy grayF equalized
  zipWithMat (fun c g => if c = 1 ∨ g = 1 then (1 : Nat) else 0)
    color_select grad_select

/-! ### Reference-and-store model

Python's numpy arrays are reference values and `eq_histogram` writes
through the reference it receives.  A store maps references (naturals)
to frame contents; the stateful versions below make that buffer
mutation and the aliasing of the returned frame explicit. -/

/-- `eq_histogram` as the caller observes it: the buffer named by `r` is
overwritten with the equalized frame and the very same reference is
returned. -/
def eq_histogramS (eqHist : Mat Nat → Mat Nat)
    (store : Nat → Image) (r : Nat) : (Nat → Image) × Nat :=
  (Function.update store r (eq_histogram eqHist (store r)), r)

/-- `isolate_lines` as the caller observes it: the equalization step
mutates the caller's buffer, and both selectors read the equalized
frame through the returned alias. -/
noncomputable def isolate_linesS (eqHist : Mat Nat → Mat Nat)
    (luv hls lab : Pixel → Pixel) (sx sy : Mat Nat → Mat ℝ)
    (grayF : Pixel → Nat) (store : Nat → Image) (r : Nat) :
    (Nat → Image) × Mat Nat :=
  let step := eq_histogramS eqHist store r
  let equalized := step.1 step.2
  let color_select := color_threshold luv hls lab equalized
  let grad_select := gradient_threshold sx sy grayF equalized
  (step.1, zipWithMat (fun c g => if c = 1 ∨ g = 1 then (1 : Nat) else 0)
    color_select grad_select)

/-! ### Fallible model

The pipeline performs no input validation of its own: invalid frames
are rejected by the external primitives (`cv2.equalizeHist` requires a
non-empty single-channel plane, `img[:, :, c]` requires the channel to
exist, `cv2.cvtColor` requires a non-empty frame with the channel count
of the requested conversion) and the raised error propagates out of
`isolate_lines` unhandled.  Frames carry an arbitrary channel count
here, and each external primitive returns `Except`. -/

/-- Errors of the pipeline's error taxonomy. -/
inductive PipelineError where
  | invalidInput : PipelineError
  | conversionFailure : PipelineError
deriving DecidableEq

/-- A frame with an arbitrary per-pixel channel count. -/
abbrev ImageN : Type := Mat (List Nat)

/-- Every row of the frame is empty, i.e. the frame has zero height or
zero width. -/
def emptyFrame (img : Mat α) : Bool :=
  img.all (fun row => row.isEmpty)

/-- Every pixel of the frame has exactly `c` channels. -/
def channelCount (c : Nat) (img : ImageN) : Prop :=
  ∀ row ∈ img, ∀ p ∈ row, p.length = c

/-- `img[:, :, c]`: extract channel plane `c`, failing like the numpy
indexing does when some pixel lacks channel `c`. -/
def planeE (c : Nat) (img : ImageN) : Except PipelineError (Mat Nat) :=
  if img.all (fun row => row.all (fun p => c < p.length)) then
    .ok (mapMat (fun p => p.getD c 0) img)
  else .error .invalidInput

/-- `img[:, :, c] = m`: write plane `m` back into channel `c`. -/
def setChannel (c : Nat) (img : ImageN) (m : Mat Nat) : ImageN :=
  zipWithMat (fun p v => p.set c v) img m

/-- `cv2.cvtColor` with a three-channel colour conversion: fails on an
empty frame or on a channel count other than 3, else applies the
per-pixel transform. -/
def cvtColorE (f : Pixel → Pixel) (img : ImageN) : Except PipelineError (Mat Pixel) :=
  if emptyFrame img then .error .invalidInput
  else if img.all (fun row => row.all (fun p => p.length = 3)) then
    .ok (mapMat (fun p => f (p.getD 0 0, p.getD 1 0, p.getD 2 0)) img)
  else .error .invalidInput

/-- `cv2.cvtColor` with `COLOR_BGR2GRAY`: fails on an empty frame or on
a channel count other than 3 or 4. -/
def cvtGrayE (grayF : Pixel → Nat) (img : ImageN) : Except PipelineError (Mat Nat) :=
  if emptyFrame img then .error .invalidInput
  else if img.all (fun row => row.all (fun p => p.length = 3 ∨ p.length = 4)) then
    .ok (mapMat (fun p => grayF (p.getD 0 0, p.getD 1 0, p.getD 2 0)) img)
  else .error .invalidInput

/-- `LaneIsolator.eq_histogram` over the fallible primitives, with the
source's read/equalize/write-back sequencing. -/
def eq_histogramE (eqE : Mat Nat → Except PipelineError (Mat Nat))
    (img : ImageN) : Except PipelineError ImageN := do
  let p0 ← planeE 0 img
  let e0 ← eqE p0
  let i0 := setChannel 0 img e0
  let p1 ← planeE 1 i0
  let e1 ← eqE p1
  let i1 := setChannel 1 i0 e1
  let p2 ← planeE 2 i1
  let e2 ← eqE p2
  pure (setChannel 2 i1 e2)

/-- `LaneIsolator.color_threshold` over the fallible primitives. -/
def color_thresholdE (luv hls lab : Pixel → Pixel)
    (img : ImageN) : Except PipelineError (Mat Nat) := do
  let luvImg ← cvtColorE luv img
  let hlsImg ← cvtColorE hls img
  let labImg ← cvtColorE lab img
  let l_chan := mapMat (fun q => q.1) luvImg
  let s_chan := mapMat (fun q => q.2.2) hlsImg
  let b_chan := mapMat (fun q => q.2.2) labImg
  pure (zipWith3Mat (fun l s b => if l = 1 ∧ s = 1 ∨ b = 1 then (1 : Nat) else 0)
    (_within_threshold l_chan L_THRESHOLD)
    (_within_threshold s_chan S_THRESHOLD)
    (_within_threshold b_chan B_THRESHOLD))

/-- `LaneIsolator.gradient_threshold` over the fallible primitives. -/
noncomputable def gradient_thresholdE (sx sy : Mat Nat → Mat ℝ)
    (grayF : Pixel → Nat) (img : ImageN) : Except PipelineError (Mat ℝ) := do
  let gray ← cvtGrayE grayF img
  let magnitude := _gradient_mag sx sy gray
  let direction := _gradient_dir sx sy gray
  let mag_thresh := _within_threshold magnitude MAG_THRESHOLD
  let dir_thresh := _within_threshold direction DIR_THRESHOLD
  pure (zipWithMat (fun m d => if m = 1 ∧ d = 1 then (1 : ℝ) else 0)
    mag_thresh dir_thresh)

/-- `LaneIsolator.isolate_lines` over the fallible primitives:
whichever stage signals first aborts the call, and a mask is returned
only when every stage succeeded. -/
noncomputable def isolate_linesE (eqE : Mat Nat → Except PipelineError (Mat Nat))
    (luv hls lab : Pixel → Pixel) (sx sy : Mat Nat → Mat ℝ)
    (grayF : Pixel → Nat) (img : ImageN) : Except PipelineError (Mat Nat) := do
  let equalized ← eq_histogramE eqE img
  let color_select ← color_thresholdE luv hls lab equalized
  let grad_select ← gradient_thresholdE sx sy grayF equalized
  pure (zipWithMat (fun c g => if c = 1 ∨ g = 1 then (1 : Nat) else 0)
    color_select grad_select)

/-! ## Helper lemmas -/

theorem getElem2_zipWith (f : α → β → γ) (l1 : List α) (l2 : List β) (i : Nat) :
    (List.zipWith f l1 l2)[i]? = (l1[i]?).bind (fun a => (l2[i]?).map (f a)) := by
  induction l1 generalizing l2 i with
  | nil => simp
  | cons a as ih =>
    cases l2 with
    | nil => simp
    | cons b bs =>
      cases i with
      | zero => simp
      | succ n => simpa using ih bs n

theorem getElem2_zipWith3 (f : α → β → γ → δ)
    (l1 : List α) (l2 : List β) (l3 : List γ) (i : Nat) :
    (zipWith3 f l1 l2 l3)[i]? =
      (l1[i]?).bind (fun a => (l2[i]?).bind (fun b => (l3[i]?).map (f a b))) := by
  induction l1 generalizing l2 l3 i with
  | nil => simp [zipWith3]
  | cons a as ih =>
    cases l2 with
    | nil => simp [zipWith3]
    | cons b bs =>
      cases l3 with
      | nil => simp [zipWith3]
      | cons c cs =>
        cases i with
        | zero => simp [zipWith3]
        | succ n => simpa [zipWith3] using ih bs cs n

theorem idx_mapMat (f : α → β) (m : Mat α) (i j : Nat) :
    idx (mapMat f m) i j = (idx m i j).map f := by
  cases h : m[i]? with
  | none => simp [idx, mapMat, List.getElem?_map, h]
  | some row => simp [idx, mapMat, List.getElem?_map, h]

theorem idx_zipWithMat (f : α → β → γ) (a : Mat α) (b : Mat β) (i j : Nat) :
    idx (zipWithMat f a b) i j =
      (idx a i j).bind (fun x => (idx b i j).map (f x)) := by
  cases ha : a[i]? with
  | none => simp [idx, zipWithMat, getElem2_zipWith, ha]
  | some ra =>
    cases hb : b[i]? with
    | none => simp [idx, zipWithMat, getElem2_zipWith, ha, hb]
    | some rb =>
      simp [idx, zipWithMat, getElem2_zipWith, ha, hb]

theorem idx_zipWith3Mat (f : α → β → γ → δ) (a : Mat α) (b : Mat β) (cm : Mat γ)
    (i j : Nat) :
    idx (zipWith3Mat f a b cm) i j =
      (idx a i j).bind (fun x => (idx b i j).bind (fun y => (idx cm i j).map (f x y))) := by
  cases ha : a[i]? with
  | none => simp [idx, zipWith3Mat, getElem2_zipWith3, ha]
  | some ra =>
    cases hb : b[i]? with
    | none => simp [idx, zipWith3Mat, getElem2_zipWith3, ha, hb]
    | some rb =>
      cases hc : cm[i]? with
      | none => simp [idx, zipWith3Mat, getElem2_zipWith3, ha, hb, hc]
      | some rc =>
        simp [idx, zipWith3Mat, getElem2_zipWith3, ha, hb, hc]

theorem idx_within [LinearOrder α] [Zero α] [One α]
    (m : Mat α) (t : α × α) (i j : Nat) :
    idx (_within_threshold m t) i j =
      (idx m i j).map (fun v => if t.1 ≤ v ∧ v ≤ t.2 then 1 else 0) := by
  simp [_within_threshold, idx_mapMat]

theorem shapeMat_mapMat (f : α → β) (m : Mat α) :
    shapeMat (mapMat f m) = shapeMat m := by
  simp [shapeMat, mapMat, Function.comp]

/-! ## Claims about the threshold utility (C4, C5, C7) -/

/-- Claim C4: for every single-channel map over a linearly ordered value
domain (integer and real domains included) and every inclusive range
`[low, high]`, `_within_threshold` returns a map of the same shape in
which each element is `1` iff the corresponding input element `v`
satisfies `low ≤ v ≤ high`, and `0` otherwise. -/
theorem within_threshold_rule [LinearOrder α] [Zero α] [One α]
    (m : Mat α) (lo hi : α) :
    shapeMat (_within_threshold m (lo, hi)) = shapeMat m ∧
    ∀ i j, idx (_within_threshold m (lo, hi)) i j =
      (idx m i j).map (fun v => if lo ≤ v ∧ v ≤ hi then 1 else 0) := by
  constructor
  · simpa [_within_threshold] using shapeMat_mapMat _ m
  · intro i j
    simp [idx_within]

/-- Claim C5: widening a threshold range (`low` decreases and/or `high`
increases) never decreases the number of set pixels of the resulting
sub-mask, holding the map fixed; indeed every pixel set under the
narrower range is also set under the wider range. -/
theorem within_threshold_widen [LinearOrder α] [Zero α] [One α] [DecidableEq α]
    (m : Mat α) (lo1 hi1 lo2 hi2 : α) (hlo : lo2 ≤ lo1) (hhi : hi1 ≤ hi2) :
    countOnes (_within_threshold m (lo1, hi1)) ≤
      countOnes (_within_threshold m (lo2, hi2)) ∧
    ∀ i j, idx (_within_threshold m (lo1, hi1)) i j = some 1 →
      idx (_within_threshold m (lo2, hi2)) i j = some 1 := by
  have key : ∀ v : α, (if lo1 ≤ v ∧ v ≤ hi1 then (1 : α) else 0) = 1 →
      (if lo2 ≤ v ∧ v ≤ hi2 then (1 : α) else 0) = 1 := by
    intro v h
    by_cases h2 : lo2 ≤ v ∧ v ≤ hi2
    · rw [if_pos h2]
    · by_cases h1 : lo1 ≤ v ∧ v ≤ hi1
      · exact absurd ⟨le_trans hlo h1.1, le_trans h1.2 hhi⟩ h2
      · rw [if_neg h1] at h
        rw [if_neg h2]
        exact h
  constructor
  · simp only [countOnes, _within_threshold, mapMat, List.map_map]
    apply List.sum_le_sum
    intro row _
    simp only [Function.comp, List.countP_map]
    apply List.countP_mono_left
    intro v _ hv
    simp only [Function.comp_apply, decide_eq_true_eq] at hv ⊢
    exact key v hv
  · intro i j h
    rw [idx_within] at h ⊢
    rcases Option.map_eq_some'.mp h with ⟨v, hv, hval⟩
    rw [hv]
    simp only [Option.map_some', Option.some_inj]
    exact key v hval

/-- Witness for C5 at a concrete map: the range `[2, 4]` widened to
`[1, 8]` keeps every set pixel set and does not decrease the count. -/
theorem within_threshold_widen_witness :
    countOnes (_within_threshold ([[(0 : ℤ), 3, 7]]) ((2 : ℤ), 4)) ≤
      countOnes (_within_threshold ([[(0 : ℤ), 3, 7]]) ((1 : ℤ), 8)) ∧
    ∀ i j, idx (_within_threshold ([[(0 : ℤ), 3, 7]]) ((2 : ℤ), 4)) i j = some 1 →
      idx (_within_threshold ([[(0 : ℤ), 3, 7]]) ((1 : ℤ), 8)) i j = some 1 :=
  within_threshold_widen [[(0 : ℤ), 3, 7]] 2 4 1 8 (by decide) (by decide)

/-- Claim C7 is false on the code: `_within_threshold` with range
`[0, 1]` sets every in-range entry to `1`, so the binary map `[[0]]`
(whose single sample is `0`, hence `0` or `1`) is mapped to `[[1]]`,
not returned unchanged. -/
theorem within_unit_range_not_identity :
    ((0 : ℤ) = 0 ∨ (0 : ℤ) = 1) ∧
    _within_threshold ([[(0 : ℤ)]]) ((0 : ℤ), 1) = [[1]] ∧
    _within_threshold ([[(0 : ℤ)]]) ((0 : ℤ), 1) ≠ [[(0 : ℤ)]] := by
  refine ⟨Or.inl rfl, by decide, by decide⟩

/-- Amended C7: applying the threshold utility with range `[0, 1]` to an
already-binary `{0, 1}` map returns the all-ones map of the same shape
(so the map is returned unchanged exactly when it contains no `0`). -/
theorem within_unit_range_all_ones [LinearOrder α] [Zero α] [One α]
    [ZeroLEOneClass α] (m : Mat α) (hbin : binaryMat m) :
    _within_threshold m ((0 : α), 1) = mapMat (fun _ => (1 : α)) m := by
  simp only [_within_threshold, mapMat]
  apply List.map_congr_left
  intro row hrow
  apply List.map_congr_left
  intro v hv
  rcases hbin row hrow v hv with h | h
  · subst h
    exact if_pos ⟨le_refl 0, zero_le_one⟩
  · subst h
    exact if_pos ⟨zero_le_one, le_refl 1⟩

/-- Witness for the amended C7 at a concrete binary map. -/
theorem within_unit_range_all_ones_witness :
    _within_threshold ([[(0 : ℤ), 1]]) ((0 : ℤ), 1) =
      mapMat (fun _ => (1 : ℤ)) [[(0 : ℤ), 1]] :=
  within_unit_range_all_ones [[(0 : ℤ), 1]] (by unfold binaryMat; decide)

/-! ## Map-fusion lemmas -/

theorem mapMat_mapMat (f : β → γ) (g : α → β) (m : Mat α) :
    mapMat f (mapMat g m) = mapMat (fun x => f (g x)) m := by
  simp [mapMat, List.map_map, Function.comp]

theorem zipWith3_map_same (f : β → γ → δ → ε)
    (g1 : α → β) (g2 : α → γ) (g3 : α → δ) (l : List α) :
    zipWith3 f (l.map g1) (l.map g2) (l.map g3) =
      l.map (fun x => f (g1 x) (g2 x) (g3 x)) := by
  induction l with
  | nil => simp [zipWith3]
  | cons a as ih => simp [zipWith3, ih]

theorem zipWith3Mat_mapMat_same (f : β → γ → δ → ε)
    (g1 : α → β) (g2 : α → γ) (g3 : α → δ) (m : Mat α) :
    zipWith3Mat f (mapMat g1 m) (mapMat g2 m) (mapMat g3 m) =
      mapMat (fun x => f (g1 x) (g2 x) (g3 x)) m := by
  simp only [zipWith3Mat, mapMat, zipWith3_map_same]

theorem mapMat_zipWithMat (f : γ → δ) (g : α → β → γ) (a : Mat α) (b : Mat β) :
    mapMat f (zipWithMat g a b) = zipWithMat (fun x y => f (g x y)) a b := by
  simp [mapMat, zipWithMat, List.map_zipWith]

theorem zipWith_zipWith_same (c : γ → δ → ε) (u : α → β → γ) (v : α → β → δ) :
    ∀ (l1 : List α) (l2 : List β),
      List.zipWith c (List.zipWith u l1 l2) (List.zipWith v l1 l2) =
        List.zipWith (fun a b => c (u a b) (v a b)) l1 l2 := by
  intro l1
  induction l1 with
  | nil => intro l2; simp
  | cons a as ih =>
    intro l2
    cases l2 with
    | nil => simp
    | cons b bs => simp [ih bs]

theorem zipWithMat_zipWithMat_same (c : γ → δ → ε) (u : α → β → γ) (v : α → β → δ)
    (a : Mat α) (b : Mat β) :
    zipWithMat c (zipWithMat u a b) (zipWithMat v a b) =
      zipWithMat (fun x y => c (u x y) (v x y)) a b := by
  simp only [zipWithMat]
  rw [zipWith_zipWith_same (List.zipWith c) (List.zipWith u) (List.zipWith v) a b]
  congr 1
  funext ra rb
  exact zipWith_zipWith_same c u v ra rb

/-! ## Claims about the selectors and the combiner (C1, C2, C6) -/

theorem color_threshold_as_mapMat (luv hls lab : Pixel → Pixel) (img : Image) :
    color_threshold luv hls lab img =
      mapMat (fun p =>
        if (120 ≤ (luv p).1 ∧ (luv p).1 ≤ 255) ∧ (105 ≤ (hls p).2.2 ∧ (hls p).2.2 ≤ 255)
            ∨ (180 ≤ (lab p).2.2 ∧ (lab p).2.2 ≤ 210)
        then (1 : Nat) else 0) img := by
  simp only [color_threshold, _within_threshold, mapMat_mapMat, zipWith3Mat_mapMat_same]
  congr 1
  funext p
  simp only [L_THRESHOLD, S_THRESHOLD, B_THRESHOLD]
  by_cases h1 : (120 : Nat) ≤ (luv p).1 ∧ (luv p).1 ≤ 255 <;>
    by_cases h2 : (105 : Nat) ≤ (hls p).2.2 ∧ (hls p).2.2 ≤ 255 <;>
      by_cases h3 : (180 : Nat) ≤ (lab p).2.2 ∧ (lab p).2.2 ≤ 210 <;>
        simp [h1, h2, h3]

/-- Claim C1: for every 3-channel input frame, the mask returned by
`isolate_lines` is the elementwise OR of the colour-selection mask and
the gradient-selection mask, both computed on the equalized frame: an
output pixel is `1` iff the corresponding pixel is `1` in the colour
mask or `1` in the gradient mask, else `0`. -/
theorem isolate_lines_elementwise_or (eqHist : Mat Nat → Mat Nat)
    (luv hls lab : Pixel → Pixel) (sx sy : Mat Nat → Mat ℝ) (grayF : Pixel → Nat)
    (img : Image) (i j : Nat) :
    idx (isolate_lines eqHist luv hls lab sx sy grayF img) i j =
      (idx (color_threshold luv hls lab (eq_histogram eqHist img)) i j).bind
        (fun c => (idx (gradient_threshold sx sy grayF (eq_histogram eqHist img)) i j).map
          (fun g => if c = 1 ∨ g = 1 then (1 : Nat) else 0)) := by
  simp only [isolate_lines]
  exact idx_zipWithMat _ _ _ i j

/-- Claim C2: on every (equalized) 3-channel frame the colour-selection
mask sets a pixel to `1` iff (its lightness channel lies in `[120, 255]`
and its saturation channel lies in `[105, 255]`) or its chrominance
channel lies in `[180, 210]`, and to `0` otherwise; in particular a
pixel whose chrominance is in range is set even when lightness and
saturation are both out of range. -/
theorem color_threshold_rule (luv hls lab : Pixel → Pixel) (img : Image) (i j : Nat) :
    idx (color_threshold luv hls lab img) i j =
      (idx img i j).map (fun p =>
        if (120 ≤ (luv p).1 ∧ (luv p).1 ≤ 255) ∧ (105 ≤ (hls p).2.2 ∧ (hls p).2.2 ≤ 255)
            ∨ (180 ≤ (lab p).2.2 ∧ (lab p).2.2 ≤ 210)
        then (1 : Nat) else 0) := by
  rw [color_threshold_as_mapMat, idx_mapMat]

/-- The direction computation `arctan2 |dy| |dx|` always lands in
`[0, pi / 2]`. -/
theorem arctan2_abs_range (y x : ℝ) :
    0 ≤ arctan2 |y| |x| ∧ arctan2 |y| |x| ≤ Real.pi / 2 := by
  have hx : (0 : ℝ) ≤ |x| := abs_nonneg x
  have hy : (0 : ℝ) ≤ |y| := abs_nonneg y
  unfold arctan2
  by_cases h1 : 0 < |x|
  · rw [if_pos h1]
    refine ⟨?_, (Real.arctan_lt_pi_div_two _).le⟩
    have hq : (0 : ℝ) ≤ |y| / |x| := div_nonneg hy hx
    calc (0 : ℝ) = Real.arctan 0 := Real.arctan_zero.symm
    _ ≤ Real.arctan (|y| / |x|) := Real.arctan_strictMono.monotone hq
  · rw [if_neg h1, if_neg (not_lt.mpr hx)]
    by_cases h2 : 0 < |y|
    · rw [if_pos h2]
      exact ⟨by linarith [Real.pi_pos], le_refl _⟩
    · rw [if_neg h2, if_neg (not_lt.mpr hy)]
      exact ⟨le_refl 0, by linarith [Real.pi_pos]⟩

/-- Claim C6: the gradient mask combines the magnitude and direction
thresholds pixelwise with AND; the direction threshold `[0, pi / 2]`
passes every pixel (directions are computed from absolute derivatives),
so the gradient mask equals the magnitude-threshold mask alone. -/
theorem gradient_threshold_rule (sx sy : Mat Nat → Mat ℝ) (grayF : Pixel → Nat)
    (img : Image) :
    (∀ i j, idx (gradient_threshold sx sy grayF img) i j =
       (idx (_within_threshold (_gradient_mag sx sy (mapMat grayF img)) MAG_THRESHOLD) i j).bind
         (fun m => (idx (_within_threshold (_gradient_dir sx sy (mapMat grayF img)) DIR_THRESHOLD) i j).map
           (fun d => if m = 1 ∧ d = 1 then (1 : ℝ) else 0))) ∧
    _within_threshold (_gradient_dir sx sy (mapMat grayF img)) DIR_THRESHOLD =
      mapMat (fun _ => (1 : ℝ)) (_gradient_dir sx sy (mapMat grayF img)) ∧
    gradient_threshold sx sy grayF img =
      _within_threshold (_gradient_mag sx sy (mapMat grayF img)) MAG_THRESHOLD := by
  have hdir : _within_threshold (_gradient_dir sx sy (mapMat grayF img)) DIR_THRESHOLD =
      mapMat (fun _ => (1 : ℝ)) (_gradient_dir sx sy (mapMat grayF img)) := by
    simp only [_within_threshold, _gradient_dir, _gradients, mapMat_zipWithMat]
    congr 1
    funext a b
    have hcond : DIR_THRESHOLD.1 ≤ arctan2 |b| |a| ∧ arctan2 |b| |a| ≤ DIR_THRESHOLD.2 := by
      simpa only [DIR_THRESHOLD] using arctan2_abs_range b a
    exact if_pos hcond
  refine ⟨?_, hdir, ?_⟩
  · intro i j
    simp only [gradient_threshold]
    exact idx_zipWithMat _ _ _ i j
  · simp only [gradient_threshold]
    rw [hdir]
    simp only [_gradient_mag, _gradient_dir, _gradients, _within_threshold,
      mapMat_zipWithMat, zipWithMat_zipWithMat_same]
    congr 1
    funext a b
    by_cases hm : MAG_THRESHOLD.1 ≤ Real.sqrt (a ^ 2 + b ^ 2) ∧
        Real.sqrt (a ^ 2 + b ^ 2) ≤ MAG_THRESHOLD.2
    · simp [hm]
    · simp [hm]

/-! ## Shape and binarity lemmas -/

theorem length_zipWith3 (f : α → β → γ → δ) :
    ∀ (l1 : List α) (l2 : List β) (l3 : List γ),
      (zipWith3 f l1 l2 l3).length = min l1.length (min l2.length l3.length) := by
  intro l1
  induction l1 with
  | nil => intro l2 l3; simp [zipWith3]
  | cons a as ih =>
    intro l2 l3
    cases l2 with
    | nil => simp [zipWith3]
    | cons b bs =>
      cases l3 with
      | nil => simp [zipWith3]
      | cons c cs =>
        simp only [zipWith3, List.length_cons, ih bs cs]
        omega

theorem shapeMat_zipWithMat (f : α → β → γ) (a : Mat α) (b : Mat β)
    (h : shapeMat a = shapeMat b) : shapeMat (zipWithMat f a b) = shapeMat a := by
  induction a generalizing b with
  | nil => simp [zipWithMat, shapeMat]
  | cons ra as ih =>
    cases b with
    | nil => simp [shapeMat] at h
    | cons rb bs =>
      simp only [shapeMat, List.map_cons, List.cons.injEq] at h
      simp only [zipWithMat, List.zipWith_cons_cons, shapeMat, List.map_cons,
        List.cons.injEq]
      constructor
      · rw [List.length_zipWith]
        omega
      · exact ih bs h.2

theorem shapeMat_zipWith3Mat (f : α → β → γ → δ) (a : Mat α) (b : Mat β) (cm : Mat γ)
    (hab : shapeMat a = shapeMat b) (hac : shapeMat a = shapeMat cm) :
    shapeMat (zipWith3Mat f a b cm) = shapeMat a := by
  induction a generalizing b cm with
  | nil => simp [zipWith3Mat, zipWith3, shapeMat]
  | cons ra as ih =>
    cases b with
    | nil => simp [shapeMat] at hab
    | cons rb bs =>
      cases cm with
      | nil => simp [shapeMat] at hac
      | cons rc cs =>
        simp only [shapeMat, List.map_cons, List.cons.injEq] at hab hac
        simp only [zipWith3Mat, zipWith3, shapeMat, List.map_cons, List.cons.injEq]
        constructor
        · rw [length_zipWith3]
          omega
        · exact ih bs cs hab.2 hac.2

theorem exists_of_mem_zipWith {f : α → β → γ} {v : γ} :
    ∀ {l1 : List α} {l2 : List β}, v ∈ List.zipWith f l1 l2 → ∃ a b, v = f a b := by
  intro l1
  induction l1 with
  | nil => intro l2 h; simp at h
  | cons a as ih =>
    intro l2 h
    cases l2 with
    | nil => simp at h
    | cons b bs =>
      rcases List.mem_cons.mp h with h | h
      · exact ⟨a, b, h⟩
      · exact ih h

theorem binaryMat_mapMat [Zero β] [One β] (f : α → β)
    (hf : ∀ x, f x = 0 ∨ f x = 1) (m : Mat α) : binaryMat (mapMat f m) := by
  intro row hrow v hv
  rcases List.mem_map.mp hrow with ⟨r, _, rfl⟩
  rcases List.mem_map.mp hv with ⟨x, _, rfl⟩
  exact hf x

theorem binaryMat_zipWithMat [Zero γ] [One γ] (f : α → β → γ)
    (hf : ∀ a b, f a b = 0 ∨ f a b = 1) (a : Mat α) (b : Mat β) :
    binaryMat (zipWithMat f a b) := by
  intro row hrow v hv
  rcases exists_of_mem_zipWith hrow with ⟨ra, rb, rfl⟩
  rcases exists_of_mem_zipWith hv with ⟨x, y, rfl⟩
  exact hf x y

/-! ## Claim C3 -/

/-- Claim C3: for every non-empty well-formed `H × W` input frame, and
shape-preserving external equalization and Sobel primitives, each of
the three masks the pipeline produces (colour selection, gradient
selection, final selection) has the spatial dimensions of the input
frame, and every sample of each mask is exactly `0` or `1`. -/
theorem pipeline_masks_shape_and_binary (eqHist : Mat Nat → Mat Nat)
    (luv hls lab : Pixel → Pixel) (sx sy : Mat Nat → Mat ℝ) (grayF : Pixel → Nat)
    (img : Image) (W H : Nat)
    (hshape : shapeMat img = List.replicate H W) (_hH : 0 < H) (_hW : 0 < W)
    (heq : ∀ m : Mat Nat, shapeMat (eqHist m) = shapeMat m)
    (hsx : ∀ m : Mat Nat, shapeMat (sx m) = shapeMat m)
    (hsy : ∀ m : Mat Nat, shapeMat (sy m) = shapeMat m) :
    (shapeMat (color_threshold luv hls lab (eq_histogram eqHist img)) =
        List.replicate H W ∧
      binaryMat (color_threshold luv hls lab (eq_histogram eqHist img))) ∧
    (shapeMat (gradient_threshold sx sy grayF (eq_histogram eqHist img)) =
        List.replicate H W ∧
      binaryMat (gradient_threshold sx sy grayF (eq_histogram eqHist img))) ∧
    (shapeMat (isolate_lines eqHist luv hls lab sx sy grayF img) =
        List.replicate H W ∧
      binaryMat (isolate_lines eqHist luv hls lab sx sy grayF img)) := by
  have h0 : shapeMat (eqHist (mapMat (fun p => p.1) img)) = shapeMat img := by
    rw [heq, shapeMat_mapMat]
  have h1 : shapeMat (eqHist (mapMat (fun p => p.2.1) img)) = shapeMat img := by
    rw [heq, shapeMat_mapMat]
  have h2 : shapeMat (eqHist (mapMat (fun p => p.2.2) img)) = shapeMat img := by
    rw [heq, shapeMat_mapMat]
  have hE : shapeMat (eq_histogram eqHist img) = shapeMat img := by
    simp only [eq_histogram]
    rw [shapeMat_zipWith3Mat _ _ _ _ (h0.trans h1.symm) (h0.trans h2.symm), h0]
  have hcshape : shapeMat (color_threshold luv hls lab (eq_histogram eqHist img)) =
      List.replicate H W := by
    rw [color_threshold_as_mapMat, shapeMat_mapMat, hE, hshape]
  have hcbin : binaryMat (color_threshold luv hls lab (eq_histogram eqHist img)) := by
    rw [color_threshold_as_mapMat]
    apply binaryMat_mapMat
    intro p
    by_cases h : (120 ≤ (luv p).1 ∧ (luv p).1 ≤ 255) ∧
        (105 ≤ (hls p).2.2 ∧ (hls p).2.2 ≤ 255) ∨
        (180 ≤ (lab p).2.2 ∧ (lab p).2.2 ≤ 210)
    · right; simp [h]
    · left; simp [h]
  have hgray : shapeMat (mapMat grayF (eq_histogram eqHist img)) = shapeMat img := by
    rw [shapeMat_mapMat, hE]
  have hgx : shapeMat (sx (mapMat grayF (eq_histogram eqHist img))) = shapeMat img := by
    rw [hsx, hgray]
  have hgy : shapeMat (sy (mapMat grayF (eq_histogram eqHist img))) = shapeMat img := by
    rw [hsy, hgray]
  have hmag : shapeMat (_gradient_mag sx sy (mapMat grayF (eq_histogram eqHist img))) =
      shapeMat img := by
    simp only [_gradient_mag, _gradients]
    rw [shapeMat_zipWithMat _ _ _ (hgx.trans hgy.symm), hgx]
  have hdirs : shapeMat (_gradient_dir sx sy (mapMat grayF (eq_histogram eqHist img))) =
      shapeMat img := by
    simp only [_gradient_dir, _gradients]
    rw [shapeMat_zipWithMat _ _ _ (hgx.trans hgy.symm), hgx]
  have hgshape : shapeMat (gradient_threshold sx sy grayF (eq_histogram eqHist img)) =
      List.replicate H W := by
    simp only [gradient_threshold, _within_threshold]
    rw [shapeMat_zipWithMat _ _ _
        (by rw [shapeMat_mapMat, shapeMat_mapMat, hmag, hdirs]),
      shapeMat_mapMat, hmag, hshape]
  have hgbin : binaryMat (gradient_threshold sx sy grayF (eq_histogram eqHist img)) := by
    simp only [gradient_threshold]
    apply binaryMat_zipWithMat
    intro a b
    by_cases h : a = 1 ∧ b = 1
    · right; simp [h]
    · left; simp [h]
  have hfshape : shapeMat (isolate_lines eqHist luv hls lab sx sy grayF img) =
      List.replicate H W := by
    simp only [isolate_lines]
    rw [shapeMat_zipWithMat _ _ _ (hcshape.trans hgshape.symm), hcshape]
  have hfbin : binaryMat (isolate_lines eqHist luv hls lab sx sy grayF img) := by
    simp only [isolate_lines]
    apply binaryMat_zipWithMat
    intro a b
    by_cases h : a = 1 ∨ b = 1
    · right; simp [h]
    · left; simp [h]
  exact ⟨⟨hcshape, hcbin⟩, ⟨hgshape, hgbin⟩, hfshape, hfbin⟩

/-- Witness for C3 at a concrete 1 by 1 frame with identity external
primitives (constant-zero Sobel maps). -/
theorem pipeline_masks_shape_and_binary_witness :
    (shapeMat (color_threshold (fun p => p) (fun p => p) (fun p => p)
        (eq_histogram (fun m => m) [[((0, 0, 0) : Pixel)]])) = List.replicate 1 1 ∧
      binaryMat (color_threshold (fun p => p) (fun p => p) (fun p => p)
        (eq_histogram (fun m => m) [[((0, 0, 0) : Pixel)]]))) ∧
    (shapeMat (gradient_threshold (fun m => mapMat (fun _ => (0 : ℝ)) m)
        (fun m => mapMat (fun _ => (0 : ℝ)) m) (fun p => p.1)
        (eq_histogram (fun m => m) [[((0, 0, 0) : Pixel)]])) = List.replicate 1 1 ∧
      binaryMat (gradient_threshold (fun m => mapMat (fun _ => (0 : ℝ)) m)
        (fun m => mapMat (fun _ => (0 : ℝ)) m) (fun p => p.1)
        (eq_histogram (fun m => m) [[((0, 0, 0) : Pixel)]]))) ∧
    (shapeMat (isolate_lines (fun m => m) (fun p => p) (fun p => p) (fun p => p)
        (fun m => mapMat (fun _ => (0 : ℝ)) m) (fun m => mapMat (fun _ => (0 : ℝ)) m)
        (fun p => p.1) [[((0, 0, 0) : Pixel)]]) = List.replicate 1 1 ∧
      binaryMat (isolate_lines (fun m => m) (fun p => p) (fun p => p) (fun p => p)
        (fun m => mapMat (fun _ => (0 : ℝ)) m) (fun m => mapMat (fun _ => (0 : ℝ)) m)
        (fun p => p.1) [[((0, 0, 0) : Pixel)]])) :=
  pipeline_masks_shape_and_binary (fun m => m) (fun p => p) (fun p => p) (fun p => p)
    (fun m => mapMat (fun _ => (0 : ℝ)) m) (fun m => mapMat (fun _ => (0 : ℝ)) m)
    (fun p => p.1) [[((0, 0, 0) : Pixel)]] 1 1 rfl (by decide) (by decide)
    (fun _ => rfl) (fun m => shapeMat_mapMat _ m) (fun m => shapeMat_mapMat _ m)

/-! ## Claims about invocation behaviour (C8, C10) -/

/-- Claim C8: the pipeline is a deterministic, stateless function of the
input frame: two invocations on buffers holding identical frames (any
references, any stores) return bit-identical masks. -/
theorem isolate_lines_deterministic (eqHist : Mat Nat → Mat Nat)
    (luv hls lab : Pixel → Pixel) (sx sy : Mat Nat → Mat ℝ) (grayF : Pixel → Nat)
    (store1 store2 : Nat → Image) (r1 r2 : Nat)
    (h : store1 r1 = store2 r2) :
    (isolate_linesS eqHist luv hls lab sx sy grayF store1 r1).2 =
      (isolate_linesS eqHist luv hls lab sx sy grayF store2 r2).2 := by
  simp only [isolate_linesS, eq_histogramS, Function.update_same, h]

/-- Witness for C8: two invocations on distinct buffers with equal
contents yield the same mask. -/
theorem isolate_lines_deterministic_witness :
    (isolate_linesS (fun m => m) (fun p => p) (fun p => p) (fun p => p)
        (fun m => mapMat (fun _ => (0 : ℝ)) m) (fun m => mapMat (fun _ => (0 : ℝ)) m)
        (fun p => p.1) (fun _ => [[((0, 0, 0) : Pixel)]]) 0).2 =
      (isolate_linesS (fun m => m) (fun p => p) (fun p => p) (fun p => p)
        (fun m => mapMat (fun _ => (0 : ℝ)) m) (fun m => mapMat (fun _ => (0 : ℝ)) m)
        (fun p => p.1) (fun _ => [[((0, 0, 0) : Pixel)]]) 1).2 :=
  isolate_lines_deterministic (fun m => m) (fun p => p) (fun p => p) (fun p => p)
    (fun m => mapMat (fun _ => (0 : ℝ)) m) (fun m => mapMat (fun _ => (0 : ℝ)) m)
    (fun p => p.1) (fun _ => [[((0, 0, 0) : Pixel)]]) (fun _ => [[((0, 0, 0) : Pixel)]])
    0 1 rfl

/-- Claim C10: the equalization stage returns the very reference it was
given, and after `isolate_lines` the caller's buffer holds the equalized
frame; hence whenever equalization changes some sample, the caller's
original frame no longer holds its pre-call pixel values. -/
theorem eq_histogram_aliasing (eqHist : Mat Nat → Mat Nat)
    (luv hls lab : Pixel → Pixel) (sx sy : Mat Nat → Mat ℝ) (grayF : Pixel → Nat)
    (store : Nat → Image) (r : Nat) :
    (eq_histogramS eqHist store r).2 = r ∧
    (isolate_linesS eqHist luv hls lab sx sy grayF store r).1 r =
      eq_histogram eqHist (store r) ∧
    (eq_histogram eqHist (store r) ≠ store r →
      (isolate_linesS eqHist luv hls lab sx sy grayF store r).1 r ≠ store r) := by
  refine ⟨rfl, ?_, ?_⟩
  · simp [isolate_linesS, eq_histogramS, Function.update_same]
  · intro hne
    simp only [isolate_linesS, eq_histogramS, Function.update_same]
    exact hne

/-- Witness for C10: with an equalization that increments every sample,
alias and mutation are observable on a concrete frame. -/
theorem eq_histogram_aliasing_witness :
    (eq_histogramS (fun m => mapMat (fun v => v + 1) m)
        (fun _ => [[((0, 0, 0) : Pixel)]]) 0).2 = 0 ∧
    (isolate_linesS (fun m => mapMat (fun v => v + 1) m) (fun p => p) (fun p => p)
        (fun p => p) (fun m => mapMat (fun _ => (0 : ℝ)) m)
        (fun m => mapMat (fun _ => (0 : ℝ)) m) (fun p => p.1)
        (fun _ => [[((0, 0, 0) : Pixel)]]) 0).1 0 ≠ (fun _ => [[((0, 0, 0) : Pixel)]]) 0 :=
  ⟨(eq_histogram_aliasing (fun m => mapMat (fun v => v + 1) m) (fun p => p) (fun p => p)
      (fun p => p) (fun m => mapMat (fun _ => (0 : ℝ)) m)
      (fun m => mapMat (fun _ => (0 : ℝ)) m) (fun p => p.1)
      (fun _ => [[((0, 0, 0) : Pixel)]]) 0).1,
   (eq_histogram_aliasing (fun m => mapMat (fun v => v + 1) m) (fun p => p) (fun p => p)
      (fun p => p) (fun m => mapMat (fun _ => (0 : ℝ)) m)
      (fun m => mapMat (fun _ => (0 : ℝ)) m) (fun p => p.1)
      (fun _ => [[((0, 0, 0) : Pixel)]]) 0).2.2 (by decide)⟩

/-! ## Lemmas for the fallible model (C9) -/

theorem exceptBind_ok (a : α) (f : α → Except ε β) :
    (Except.ok a : Except ε α) >>= f = f a := rfl

theorem exceptBind_error (e : ε) (f : α → Except ε β) :
    (Except.error e : Except ε α) >>= f = Except.error e := rfl

theorem exceptPure_eq (a : α) : (pure a : Except ε α) = Except.ok a := rfl

theorem emptyFrame_mapMat (f : α → β) (m : Mat α) :
    emptyFrame (mapMat f m) = emptyFrame m := by
  induction m with
  | nil => rfl
  | cons row rows ih =>
    simp only [emptyFrame, mapMat, List.map_cons, List.all_cons] at ih ⊢
    rw [ih]
    congr 1
    cases row <;> rfl

theorem exists_pixel {img : Mat α} (h : emptyFrame img = false) :
    ∃ row, row ∈ img ∧ ∃ p, p ∈ row := by
  simp only [emptyFrame] at h
  induction img with
  | nil => simp at h
  | cons row rows ih =>
    simp only [List.all_cons, Bool.and_eq_false_iff] at h
    rcases h with h | h
    · cases row with
      | nil => simp at h
      | cons p ps => exact ⟨p :: ps, List.mem_cons_self _ _, p, List.mem_cons_self _ _⟩
    · rcases ih h with ⟨r, hr, p, hp⟩
      exact ⟨r, List.mem_cons_of_mem _ hr, p, hp⟩

theorem mem_zipWith_strong {f : α → β → γ} {v : γ} :
    ∀ {l1 : List α} {l2 : List β}, v ∈ List.zipWith f l1 l2 →
      ∃ a, a ∈ l1 ∧ ∃ b, b ∈ l2 ∧ v = f a b := by
  intro l1
  induction l1 with
  | nil => intro l2 h; simp at h
  | cons a as ih =>
    intro l2 h
    cases l2 with
    | nil => simp at h
    | cons b bs =>
      rcases List.mem_cons.mp h with h | h
      · exact ⟨a, List.mem_cons_self _ _, b, List.mem_cons_self _ _, h⟩
      · rcases ih h with ⟨x, hx, y, hy, hv⟩
        exact ⟨x, List.mem_cons_of_mem _ hx, y, List.mem_cons_of_mem _ hy, hv⟩

theorem channelCount_setChannel {Cc : Nat} {img : ImageN} (h : channelCount Cc img)
    (c : Nat) (m : Mat Nat) : channelCount Cc (setChannel c img m) := by
  intro row hrow p hp
  rcases mem_zipWith_strong hrow with ⟨r, hr, mr, _, rfl⟩
  rcases mem_zipWith_strong hp with ⟨q, hq, v, _, rfl⟩
  rw [List.length_set]
  exact h r hr q hq

theorem planeE_of_empty (img : ImageN) (c : Nat) (h : emptyFrame img = true) :
    planeE c img = .ok (mapMat (fun p => p.getD c 0) img) := by
  have hcond : img.all (fun row => row.all (fun p => c < p.length)) = true := by
    rw [List.all_eq_true]
    intro row hrow
    have hre : row.isEmpty = true := List.all_eq_true.mp h row hrow
    cases row with
    | nil => rfl
    | cons p ps => simp at hre
  unfold planeE
  rw [if_pos hcond]

theorem planeE_ok_of_channel {Cc : Nat} {img : ImageN} {c : Nat}
    (h : channelCount Cc img) (hc : c < Cc) :
    planeE c img = .ok (mapMat (fun p => p.getD c 0) img) := by
  have hcond : img.all (fun row => row.all (fun p => c < p.length)) = true := by
    rw [List.all_eq_true]
    intro row hrow
    rw [List.all_eq_true]
    intro p hp
    simp only [decide_eq_true_eq]
    rw [h row hrow p hp]
    exact hc
  unfold planeE
  rw [if_pos hcond]

theorem planeE_error_of_channel {Cc : Nat} {img : ImageN} {c : Nat}
    (h : channelCount Cc img) (hne : emptyFrame img = false) (hc : ¬ c < Cc) :
    planeE c img = .error .invalidInput := by
  have hcond : img.all (fun row => row.all (fun p => c < p.length)) = false := by
    rcases exists_pixel hne with ⟨row, hrow, p, hp⟩
    by_contra hcond'
    have hT : img.all (fun row => row.all (fun p => c < p.length)) = true := by
      revert hcond'
      cases img.all (fun row => row.all (fun p => c < p.length)) <;> simp
    have h1 := List.all_eq_true.mp hT row hrow
    have h2 := List.all_eq_true.mp h1 p hp
    simp only [decide_eq_true_eq] at h2
    rw [h row hrow p hp] at h2
    exact hc h2
  unfold planeE
  rw [hcond]
  rfl

theorem cvtColorE_badchannel {Cc : Nat} {img : ImageN} (f : Pixel → Pixel)
    (h : channelCount Cc img) (hC : Cc ≠ 3) :
    cvtColorE f img = .error .invalidInput := by
  unfold cvtColorE
  cases hb : emptyFrame img with
  | true => rfl
  | false =>
    have hcond : img.all (fun row => row.all (fun p => p.length = 3)) = false := by
      rcases exists_pixel hb with ⟨row, hrow, p, hp⟩
      by_contra hcond'
      have hT : img.all (fun row => row.all (fun p => p.length = 3)) = true := by
        revert hcond'
        cases img.all (fun row => row.all (fun p => p.length = 3)) <;> simp
      have h1 := List.all_eq_true.mp hT row hrow
      have h2 := List.all_eq_true.mp h1 p hp
      simp only [decide_eq_true_eq] at h2
      rw [h row hrow p hp] at h2
      exact hC h2
    rw [hcond]
    rfl

theorem planeE_error_eq {img : ImageN} {c : Nat} {e : PipelineError}
    (h : planeE c img = .error e) : e = .invalidInput := by
  unfold planeE at h
  split at h
  · cases h
  · injection h with h2
    exact h2.symm

theorem planeE_ok_eq {img : ImageN} {c : Nat} {m : Mat Nat}
    (h : planeE c img = .ok m) : m = mapMat (fun p => p.getD c 0) img := by
  unfold planeE at h
  split at h
  · injection h with h2
    exact h2.symm
  · cases h

theorem eq_histogramE_of_empty (eqE : Mat Nat → Except PipelineError (Mat Nat))
    (img : ImageN)
    (heqFail : ∀ m : Mat Nat, emptyFrame m = true → eqE m = .error .invalidInput)
    (hb : emptyFrame img = true) :
    eq_histogramE eqE img = .error .invalidInput := by
  have hp0 := planeE_of_empty img 0 hb
  have hm : emptyFrame (mapMat (fun p => p.getD 0 0) img) = true := by
    rw [emptyFrame_mapMat]; exact hb
  have he0 := heqFail _ hm
  simp only [eq_histogramE, hp0, exceptBind_ok, he0, exceptBind_error]

theorem eq_histogramE_error_of_bad (eqE : Mat Nat → Except PipelineError (Mat Nat))
    (img : ImageN) (C : Nat)
    (heqFail : ∀ m : Mat Nat, emptyFrame m = true → eqE m = .error .invalidInput)
    (heqOk : ∀ m : Mat Nat, emptyFrame m = false → ∃ m2, eqE m = .ok m2)
    (hchan : channelCount C img)
    (hbad : emptyFrame img = true ∨ C < 3) :
    eq_histogramE eqE img = .error .invalidInput := by
  by_cases hb : emptyFrame img = true
  · exact eq_histogramE_of_empty eqE img heqFail hb
  · have hne : emptyFrame img = false := by
      revert hb; cases emptyFrame img <;> simp
    have hC : C < 3 := by
      rcases hbad with h | h
      · exact absurd h hb
      · exact h
    have hcc : C = 0 ∨ C = 1 ∨ C = 2 := by omega
    rcases hcc with rfl | rfl | rfl
    · have hp0 : planeE 0 img = .error .invalidInput :=
        planeE_error_of_channel hchan hne (by omega)
      simp only [eq_histogramE, hp0, exceptBind_error]
    · have hp0 : planeE 0 img = .ok (mapMat (fun p => p.getD 0 0) img) :=
        planeE_ok_of_channel hchan (by omega)
      have hne0 : emptyFrame (mapMat (fun p => p.getD 0 0) img) = false := by
        rw [emptyFrame_mapMat]; exact hne
      rcases heqOk _ hne0 with ⟨e0, he0⟩
      have hch0 : channelCount 1 (setChannel 0 img e0) :=
        channelCount_setChannel hchan 0 e0
      cases hb0 : emptyFrame (setChannel 0 img e0) with
      | true =>
        have hp1 := planeE_of_empty (setChannel 0 img e0) 1 hb0
        have hm1 : emptyFrame (mapMat (fun p => p.getD 1 0) (setChannel 0 img e0)) = true := by
          rw [emptyFrame_mapMat]; exact hb0
        have he1 := heqFail _ hm1
        simp only [eq_histogramE, hp0, exceptBind_ok, he0, hp1, he1, exceptBind_error]
      | false =>
        have hp1 : planeE 1 (setChannel 0 img e0) = .error .invalidInput :=
          planeE_error_of_channel hch0 hb0 (by omega)
        simp only [eq_histogramE, hp0, exceptBind_ok, he0, hp1, exceptBind_error]
    · have hp0 : planeE 0 img = .ok (mapMat (fun p => p.getD 0 0) img) :=
        planeE_ok_of_channel hchan (by omega)
      have hne0 : emptyFrame (mapMat (fun p => p.getD 0 0) img) = false := by
        rw [emptyFrame_mapMat]; exact hne
      rcases heqOk _ hne0 with ⟨e0, he0⟩
      have hch0 : channelCount 2 (setChannel 0 img e0) :=
        channelCount_setChannel hchan 0 e0
      have hp1 : planeE 1 (setChannel 0 img e0) =
          .ok (mapMat (fun p => p.getD 1 0) (setChannel 0 img e0)) :=
        planeE_ok_of_channel hch0 (by omega)
      cases hb0 : emptyFrame (setChannel 0 img e0) with
      | true =>
        have hm1 : emptyFrame (mapMat (fun p => p.getD 1 0) (setChannel 0 img e0)) = true := by
          rw [emptyFrame_mapMat]; exact hb0
        have he1 := heqFail _ hm1
        simp only [eq_histogramE, hp0, exceptBind_ok, he0, hp1, he1, exceptBind_error]
      | false =>
        have hm1 : emptyFrame (mapMat (fun p => p.getD 1 0) (setChannel 0 img e0)) = false := by
          rw [emptyFrame_mapMat]; exact hb0
        rcases heqOk _ hm1 with ⟨e1, he1⟩
        have hch1 : channelCount 2 (setChannel 1 (setChannel 0 img e0) e1) :=
          channelCount_setChannel hch0 1 e1
        cases hb1 : emptyFrame (setChannel 1 (setChannel 0 img e0) e1) with
        | true =>
          have hp2 := planeE_of_empty (setChannel 1 (setChannel 0 img e0) e1) 2 hb1
          have hm2 : emptyFrame (mapMat (fun p => p.getD 2 0)
              (setChannel 1 (setChannel 0 img e0) e1)) = true := by
            rw [emptyFrame_mapMat]; exact hb1
          have he2 := heqFail _ hm2
          simp only [eq_histogramE, hp0, exceptBind_ok, he0, hp1, he1, hp2, he2,
            exceptBind_error]
        | false =>
          have hp2 : planeE 2 (setChannel 1 (setChannel 0 img e0) e1) =
              .error .invalidInput :=
            planeE_error_of_channel hch1 hb1 (by omega)
          simp only [eq_histogramE, hp0, exceptBind_ok, he0, hp1, he1, hp2,
            exceptBind_error]

theorem eq_histogramE_chan (eqE : Mat Nat → Except PipelineError (Mat Nat))
    (img : ImageN) (C : Nat)
    (heqFail : ∀ m : Mat Nat, emptyFrame m = true → eqE m = .error .invalidInput)
    (heqOk : ∀ m : Mat Nat, emptyFrame m = false → ∃ m2, eqE m = .ok m2)
    (hchan : channelCount C img) :
    eq_histogramE eqE img = .error .invalidInput ∨
    ∃ img2, eq_histogramE eqE img = .ok img2 ∧ channelCount C img2 := by
  by_cases hb : emptyFrame img = true
  · exact Or.inl (eq_histogramE_of_empty eqE img heqFail hb)
  · have hne : emptyFrame img = false := by
      revert hb; cases emptyFrame img <;> simp
    cases hp0 : planeE 0 img with
    | error e =>
      have h' := planeE_error_eq hp0
      subst h'
      exact Or.inl (by simp only [eq_histogramE, hp0, exceptBind_error])
    | ok p0 =>
      have hp0eq := planeE_ok_eq hp0
      subst hp0eq
      have hne0 : emptyFrame (mapMat (fun p => p.getD 0 0) img) = false := by
        rw [emptyFrame_mapMat]; exact hne
      rcases heqOk _ hne0 with ⟨e0, he0⟩
      have hch0 : channelCount C (setChannel 0 img e0) :=
        channelCount_setChannel hchan 0 e0
      cases hp1 : planeE 1 (setChannel 0 img e0) with
      | error e =>
        have h' := planeE_error_eq hp1
        subst h'
        exact Or.inl (by simp only [eq_histogramE, hp0, exceptBind_ok, he0, hp1,
          exceptBind_error])
      | ok p1 =>
        have hp1eq := planeE_ok_eq hp1
        subst hp1eq
        cases hb0 : emptyFrame (setChannel 0 img e0) with
        | true =>
          have hm1 : emptyFrame (mapMat (fun p => p.getD 1 0) (setChannel 0 img e0)) = true := by
            rw [emptyFrame_mapMat]; exact hb0
          have he1 := heqFail _ hm1
          exact Or.inl (by simp only [eq_histogramE, hp0, exceptBind_ok, he0, hp1, he1,
            exceptBind_error])
        | false =>
          have hm1 : emptyFrame (mapMat (fun p => p.getD 1 0) (setChannel 0 img e0)) = false := by
            rw [emptyFrame_mapMat]; exact hb0
          rcases heqOk _ hm1 with ⟨e1, he1⟩
          have hch1 : channelCount C (setChannel 1 (setChannel 0 img e0) e1) :=
            channelCount_setChannel hch0 1 e1
          cases hp2 : planeE 2 (setChannel 1 (setChannel 0 img e0) e1) with
          | error e =>
            have h' := planeE_error_eq hp2
            subst h'
            exact Or.inl (by simp only [eq_histogramE, hp0, exceptBind_ok, he0, hp1, he1,
              hp2, exceptBind_error])
          | ok p2 =>
            have hp2eq := planeE_ok_eq hp2
            subst hp2eq
            cases hb1 : emptyFrame (setChannel 1 (setChannel 0 img e0) e1) with
            | true =>
              have hm2 : emptyFrame (mapMat (fun p => p.getD 2 0)
                  (setChannel 1 (setChannel 0 img e0) e1)) = true := by
                rw [emptyFrame_mapMat]; exact hb1
              have he2 := heqFail _ hm2
              exact Or.inl (by simp only [eq_histogramE, hp0, exceptBind_ok, he0, hp1,
                he1, hp2, he2, exceptBind_error])
            | false =>
              have hm2 : emptyFrame (mapMat (fun p => p.getD 2 0)
                  (setChannel 1 (setChannel 0 img e0) e1)) = false := by
                rw [emptyFrame_mapMat]; exact hb1
              rcases heqOk _ hm2 with ⟨e2, he2⟩
              refine Or.inr ⟨setChannel 2 (setChannel 1 (setChannel 0 img e0) e1) e2,
                ?_, channelCount_setChannel hch1 2 e2⟩
              simp only [eq_histogramE, hp0, exceptBind_ok, he0, hp1, he1, hp2, he2,
                exceptPure_eq]

/-! ## Claim C9 -/

/-- Claim C9: a frame that is empty (zero width or zero height) or has
an unsupported channel count makes the pipeline signal `invalidInput`
(raised by the external primitives, which the pipeline code propagates
unhandled), and no partial mask is returned; here the equalization
primitive is any function that rejects empty planes and succeeds on
non-empty ones, as `cv2.equalizeHist` does. -/
theorem isolate_linesE_invalid_input (eqE : Mat Nat → Except PipelineError (Mat Nat))
    (luv hls lab : Pixel → Pixel) (sx sy : Mat Nat → Mat ℝ) (grayF : Pixel → Nat)
    (img : ImageN) (C : Nat)
    (heqFail : ∀ m : Mat Nat, emptyFrame m = true → eqE m = .error .invalidInput)
    (heqOk : ∀ m : Mat Nat, emptyFrame m = false → ∃ m2, eqE m = .ok m2)
    (hchan : channelCount C img)
    (hbad : emptyFrame img = true ∨ C ≠ 3) :
    isolate_linesE eqE luv hls lab sx sy grayF img = .error .invalidInput := by
  by_cases hb : emptyFrame img = true
  · have h := eq_histogramE_of_empty eqE img heqFail hb
    simp only [isolate_linesE, h, exceptBind_error]
  · have hC3 : C ≠ 3 := by
      rcases hbad with h | h
      · exact absurd h hb
      · exact h
    by_cases hlt : C < 3
    · have h := eq_histogramE_error_of_bad eqE img C heqFail heqOk hchan (Or.inr hlt)
      simp only [isolate_linesE, h, exceptBind_error]
    · rcases eq_histogramE_chan eqE img C heqFail heqOk hchan with h | ⟨img2, hok, hch2⟩
      · simp only [isolate_linesE, h, exceptBind_error]
      · have hcvt : cvtColorE luv img2 = .error .invalidInput :=
          cvtColorE_badchannel luv hch2 hC3
        simp only [isolate_linesE, hok, exceptBind_ok, color_thresholdE, hcvt,
          exceptBind_error]

/-- Witness for C9 at the empty frame, with an equalization primitive
that rejects empty planes. -/
theorem isolate_linesE_invalid_input_witness :
    isolate_linesE (fun m => if emptyFrame m then .error .invalidInput else .ok m)
      (fun p => p) (fun p => p) (fun p => p)
      (fun m => mapMat (fun _ => (0 : ℝ)) m) (fun m => mapMat (fun _ => (0 : ℝ)) m)
      (fun p => p.1) ([] : ImageN) = .error .invalidInput :=
  isolate_linesE_invalid_input (fun m => if emptyFrame m then .error .invalidInput else .ok m)
    (fun p => p) (fun p => p) (fun p => p)
    (fun m => mapMat (fun _ => (0 : ℝ)) m) (fun m => mapMat (fun _ => (0 : ℝ)) m)
    (fun p => p.1) ([] : ImageN) 3
    (fun m hm => by simp [hm])
    (fun m hm => ⟨m, by simp [hm]⟩)
    (fun row hrow => absurd hrow (List.not_mem_nil row))
    (Or.inl rfl)

end LaneIsolator
